import Mathlib

/-!
Verification of the timezone-normalization core of `django_celery_beat/querysets.py`.

The shallow embedding below models the two functions of the source file:

* `get_timezone_offsets` builds a catalog mapping timezone names to their current
  UTC offset in seconds.  The ambient timezone database (`available_timezones()` and
  `ZoneInfo(...)` offset resolution, which may raise) is passed in explicitly: the
  identifier list and a resolution function returning `Option Int` (`none` models the
  `except Exception: continue` path).

* `annotate_with_utc_hour_minute` annotates each row of a queryset with `offset`,
  `utc_hour` and `utc_minute`.  The Django ORM expressions are embedded as follows:
  - the `Case`/`When` chain over the catalog keys with `default=Value(0)` is
    `offset_case` (first-match lookup, default 0);
  - the regex test `^\d+$` is `isFixed` (nonempty, all decimal digits);
  - `Cast(field, IntegerField())` on a digits-only string is `parseDigits`
    (decimal value);
  - `Floor(a / b)` is `Int.fdiv` (mathematical floor of the exact quotient,
    which is what the expression tree denotes);
  - the SQL `Mod` function is `Int.tmod`: every database backend supported by
    Django (PostgreSQL, MySQL, SQLite, Oracle) computes a remainder that takes
    the sign of the dividend, i.e. truncated remainder;
  - `Cast(expr, CharField())` on an integer is `toString` (canonical decimal
    text, with a leading minus sign for negative values).
-/

namespace DjangoCeleryBeat

/-- A queryset row: the three schedule columns consumed by the source
(`timezone`, `hour`, `minute`) plus the three values added by
`annotate_with_utc_hour_minute` (`none` when the row is not annotated). -/
structure Row where
  timezone : String
  hour : String
  minute : String
  offset : Option Int
  utc_hour : Option String
  utc_minute : Option String
deriving DecidableEq

/-- `get_timezone_offsets`: iterate over all identifiers of the ambient timezone
database; identifiers whose offset resolution fails (`resolve name = none`, the
`except Exception: continue` path) are skipped, the rest are inserted with their
offset in seconds. -/
def get_timezone_offsets (available_timezones : List String)
    (resolve : String → Option Int) : List (String × Int) :=
  available_timezones.filterMap fun name =>
    (resolve name).map fun off => (name, off)

/-- The `offset` annotation: a `Case` of one `When(timezone=tz, then=offset)` per
catalog key, with `default=Value(0)` — i.e. first-match lookup defaulting to 0. -/
def offset_case (timezone_offsets : List (String × Int)) (tz : String) : Int :=
  match timezone_offsets.lookup tz with
  | some off => off
  | none => 0

/-- The regex filter `^\d+$`: one or more decimal digits and nothing else. -/
def isFixed (s : String) : Bool :=
  !s.data.isEmpty && s.data.all Char.isDigit

/-- `Cast(field, IntegerField())` on a digits-only string: its decimal value. -/
def parseDigits (s : String) : Nat :=
  s.data.foldl (fun a c => 10 * a + (c.toNat - 48)) 0

/-- The `utc_hour` annotation: when the hour column matches `^\d+$`,
`Cast(Mod(Cast(hour) - Floor(offset / 3600), 24), CharField())`;
otherwise the hour column unchanged. -/
def utc_hour_case (offset : Int) (hourField : String) : String :=
  if isFixed hourField then
    toString (Int.tmod ((parseDigits hourField : Int) - Int.fdiv offset 3600) 24)
  else hourField

/-- The `utc_minute` annotation: when the minute column matches `^\d+$`,
`Cast(Cast(minute) - Floor(Mod(offset, 3600) / 60), CharField())` — note the
source applies no modulus to this difference; otherwise the minute column
unchanged. -/
def utc_minute_case (offset : Int) (minuteField : String) : String :=
  if isFixed minuteField then
    toString ((parseDigits minuteField : Int) - Int.fdiv (Int.tmod offset 3600) 60)
  else minuteField

/-- One row of `queryset.annotate(offset).annotate(utc_hour, utc_minute)`:
the `utc_hour` and `utc_minute` expressions read the freshly annotated
`offset` column. -/
def annotateRow (timezone_offsets : List (String × Int)) (row : Row) : Row :=
  let off := offset_case timezone_offsets row.timezone
  { row with
    offset := some off
    utc_hour := some (utc_hour_case off row.hour)
    utc_minute := some (utc_minute_case off row.minute) }

/-- `annotate_with_utc_hour_minute`: `if not timezone_offsets: return queryset`,
otherwise annotate every row. -/
def annotate_with_utc_hour_minute (timezone_offsets : List (String × Int))
    (queryset : List Row) : List Row :=
  if timezone_offsets.isEmpty then queryset
  else queryset.map (annotateRow timezone_offsets)

/-- Decimal printing of a `Nat` coincides with decimal printing of its
image in `Int`. -/
theorem toString_intOfNat (n : Nat) : toString (n : Int) = toString n := rfl

/-- A truncated remainder of a value already in the target range is the value
itself. -/
theorem tmod_eq_self_of_nonneg_of_lt {a b : Int} (h0 : 0 ≤ a) (hab : a < b) :
    Int.tmod a b = a := by
  rcases Int.eq_ofNat_of_zero_le h0 with ⟨n, rfl⟩
  rcases Int.eq_ofNat_of_zero_le (le_trans h0 (le_of_lt hab)) with ⟨m, rfl⟩
  rw [← Int.ofNat_tmod]
  exact congrArg Int.ofNat (Nat.mod_eq_of_lt (Int.ofNat_lt.mp hab))

/-- Every hour value below 24 prints as a digits-only string that parses back
to itself. -/
theorem repr_fixed_lt24 :
    ∀ n : Nat, n < 24 → isFixed (toString n) = true ∧ parseDigits (toString n) = n := by
  decide

/-- C1: the source's `utc_minute` expression applies no mod-60 wraparound, so for
the half-hour offset +19800 (Asia/Kolkata) and minute field "0" it produces the
string "-30", not the "30" required by the specification's formula
`((m - floor((offsetSeconds mod 3600) / 60)) mod 60 + 60) mod 60`. -/
theorem C1_minute_no_wraparound : utc_minute_case 19800 "0" = "-30" := by decide

/-- C2: the source's `utc_hour` expression applies a single sign-of-dividend
`Mod(..., 24)`, not the double mod of the specification, so hour field "0" with
the whole-hour offset +3600 yields the string "-1" — outside [0,23] — where the
specification's formula `((h - floor(o/3600)) mod 24 + 24) mod 24` yields 23. -/
theorem C2_hour_negative : utc_hour_case 3600 "0" = "-1" := by decide

/-- C3: a Complex field (one that does not consist solely of decimal digits) is
passed through verbatim by both the hour and the minute annotation, for every
offset catalog and timezone name. -/
theorem C3_complex_passthrough (catalog : List (String × Int)) (tzName field : String)
    (h : isFixed field = false) :
    utc_hour_case (offset_case catalog tzName) field = field ∧
    utc_minute_case (offset_case catalog tzName) field = field := by
  constructor <;> simp [utc_hour_case, utc_minute_case, h]

/-- C3 witness: the step expression field "*/15" is echoed unchanged under the
Asia/Kolkata offset. -/
theorem C3_complex_passthrough_witness :
    utc_hour_case (offset_case [("Asia/Kolkata", 19800)] "Asia/Kolkata") "*/15" = "*/15" ∧
    utc_minute_case (offset_case [("Asia/Kolkata", 19800)] "Asia/Kolkata") "*/15" = "*/15" :=
  C3_complex_passthrough [("Asia/Kolkata", 19800)] "Asia/Kolkata" "*/15" (by decide)

/-- C4: with an empty offset catalog, `annotate_with_utc_hour_minute` returns the
queryset unchanged: no offsets are fabricated and no field is transformed. -/
theorem C4_empty_catalog_identity (queryset : List Row) :
    annotate_with_utc_hour_minute [] queryset = queryset := rfl

/-- C7: the batch transformation is total — it produces exactly one output row
per input row, for every offset catalog (empty or not) and every batch,
including rows with unknown timezones or malformed fields. -/
theorem C7_total (timezone_offsets : List (String × Int)) (queryset : List Row) :
    (annotate_with_utc_hour_minute timezone_offsets queryset).length = queryset.length := by
  unfold annotate_with_utc_hour_minute
  split
  · rfl
  · exact List.length_map queryset _

/-- C5: a schedule whose timezone is absent from the catalog is annotated exactly
as it would be under offset 0 (the `default=Value(0)` arm of the offset `Case`),
whatever the rest of the (non-empty) catalog contains. -/
theorem C5_unknown_timezone_zero_offset (catalog : List (String × Int)) (row : Row)
    (hne : catalog.isEmpty = false)
    (habs : catalog.lookup row.timezone = none) :
    annotate_with_utc_hour_minute catalog [row] =
      [{ row with
          offset := some 0
          utc_hour := some (utc_hour_case 0 row.hour)
          utc_minute := some (utc_minute_case 0 row.minute) }] := by
  unfold annotate_with_utc_hour_minute
  rw [if_neg (by simp [hne])]
  simp [annotateRow, offset_case, habs]

/-- C5 witness: a row with the unknown timezone "Mars/Olympus" under the catalog
containing only Europe/Paris is normalized with offset 0. -/
theorem C5_unknown_timezone_witness :
    annotate_with_utc_hour_minute [("Europe/Paris", 3600)]
      [⟨"Mars/Olympus", "9", "30", none, none, none⟩] =
      [⟨"Mars/Olympus", "9", "30", some 0, some "9", some "30"⟩] :=
  (C5_unknown_timezone_zero_offset [("Europe/Paris", 3600)]
    ⟨"Mars/Olympus", "9", "30", none, none, none⟩ (by decide) (by decide)).trans (by decide)

/-- C6: the catalog build is total and resolution-faithful — looking up any
listed identifier yields exactly the result of its offset resolution (its offset
when resolution succeeds, nothing when resolution fails, which models the
silently skipped `except ... continue` path), and unlisted names are absent. -/
theorem C6_catalog_total (available_timezones : List String)
    (resolve : String → Option Int) (name : String) :
    (get_timezone_offsets available_timezones resolve).lookup name =
      if name ∈ available_timezones then resolve name else none := by
  induction available_timezones with
  | nil => simp [get_timezone_offsets]
  | cons t rest ih =>
    simp only [get_timezone_offsets, List.filterMap_cons] at ih ⊢
    by_cases het : name = t
    · subst het
      cases hres : resolve name with
      | none =>
        simp only [Option.map_none', ih, List.mem_cons, true_or, if_true]
        by_cases hmem : name ∈ rest <;> simp [hmem, hres]
      | some off =>
        simp [List.lookup, hres]
    · have hbeq : (name == t) = false := beq_eq_false_iff_ne.mpr het
      cases hres : resolve t with
      | none => simp [ih, List.mem_cons, het]
      | some off => simp [List.lookup, hbeq, ih, List.mem_cons, het]

/-- C8 counterexample: the round trip fails on the code — normalizing hour "0"
with offset +3600 yields "-1" (the single sign-of-dividend mod), which the second
pass treats as Complex and echoes, so the round trip returns "-1", not "0". -/
theorem C8_roundtrip_cex :
    utc_hour_case (-3600) (utc_hour_case 3600 "0") = "-1" ∧ ("-1" : String) ≠ "0" := by
  decide

/-- C8 (amended): the round trip does return the original canonical Fixed hour
h in [0,23] provided the offset is a whole number of hours and the intermediate
hour h - o/3600 itself stays inside [0,23] (so that the intermediate string is
digits-only and no wraparound is involved). -/
theorem C8_roundtrip_whole_hour (h : Nat) (o : Int) (hlt : h < 24)
    (hdvd : (3600 : Int) ∣ o)
    (hlo : 0 ≤ (h : Int) - Int.fdiv o 3600)
    (hhi : (h : Int) - Int.fdiv o 3600 < 24) :
    utc_hour_case (-o) (utc_hour_case o (toString h)) = toString h := by
  obtain ⟨c, rfl⟩ := hdvd
  have h36 : (3600 : Int) ≠ 0 := by norm_num
  have hc : Int.fdiv (3600 * c) 3600 = c := Int.mul_fdiv_cancel_left _ h36
  rw [hc] at hlo hhi
  obtain ⟨hfix, hparse⟩ := repr_fixed_lt24 h hlt
  have hcast : (((h : Int) - c).toNat : Int) = (h : Int) - c := Int.toNat_of_nonneg hlo
  have hn24 : ((h : Int) - c).toNat < 24 := by omega
  have hinner : utc_hour_case (3600 * c) (toString h) = toString ((h : Int) - c).toNat := by
    simp only [utc_hour_case, if_pos hfix, hparse, hc]
    rw [tmod_eq_self_of_nonneg_of_lt hlo hhi]
    nth_rewrite 1 [← hcast]
    rw [toString_intOfNat]
  rw [hinner]
  obtain ⟨hfix2, hparse2⟩ := repr_fixed_lt24 (((h : Int) - c).toNat) hn24
  have hneg : Int.fdiv (-(3600 * c)) 3600 = -c := by
    rw [neg_mul_eq_mul_neg]
    exact Int.mul_fdiv_cancel_left _ h36
  simp only [utc_hour_case, if_pos hfix2, hparse2, hneg]
  have hsum : ((((h : Int) - c).toNat : Int)) - -c = (h : Int) := by omega
  rw [hsum, tmod_eq_self_of_nonneg_of_lt (Int.natCast_nonneg h) (by exact_mod_cast hlt),
    toString_intOfNat]

/-- C8 witness: hour 9 with offset +3600 normalizes to "8" and back to "9". -/
theorem C8_roundtrip_witness :
    utc_hour_case (-3600) (utc_hour_case 3600 (toString 9)) = toString 9 :=
  C8_roundtrip_whole_hour 9 3600 (by decide) ⟨1, by norm_num⟩ (by decide) (by decide)

/-- C9 counterexample: with offset 0 the Fixed hour field "09" is not returned
unchanged — the Fixed branch re-prints the parsed value, yielding "9". -/
theorem C9_zero_offset_cex : utc_hour_case 0 "09" ≠ "09" := by decide

/-- C9 (amended): with offset 0, Fixed fields given in canonical decimal form
are returned unchanged, provided the hour value is in range (below 24, since the
hour branch reduces mod 24); the minute needs no range bound because the minute
branch applies no modulus. -/
theorem C9_zero_offset_canonical (hs ms : String)
    (hfix : isFixed hs = true) (mfix : isFixed ms = true)
    (hlt : parseDigits hs < 24)
    (hcan : toString (parseDigits hs) = hs) (mcan : toString (parseDigits ms) = ms) :
    utc_hour_case 0 hs = hs ∧ utc_minute_case 0 ms = ms := by
  constructor
  · rw [utc_hour_case, if_pos hfix]
    have h1 : Int.fdiv 0 3600 = 0 := rfl
    have h2 : Int.tmod (parseDigits hs : Int) 24 = (parseDigits hs : Int) :=
      tmod_eq_self_of_nonneg_of_lt (Int.natCast_nonneg _) (by exact_mod_cast hlt)
    rw [h1, sub_zero, h2, toString_intOfNat, hcan]
  · rw [utc_minute_case, if_pos mfix]
    have h1 : Int.fdiv (Int.tmod 0 3600) 60 = 0 := rfl
    rw [h1, sub_zero, toString_intOfNat, mcan]

/-- C9 witness: hour "9" and minute "30" pass through unchanged at offset 0. -/
theorem C9_zero_offset_witness :
    utc_hour_case 0 "9" = "9" ∧ utc_minute_case 0 "30" = "30" :=
  C9_zero_offset_canonical "9" "30" (by decide) (by decide) (by decide) (by decide) (by decide)

/-- C10: the Fixed/Complex split is exactly the digits-only test, with no range
validation — every digits-only field (out-of-range and leading-zero forms
included) takes the arithmetic branch, whose output is the decimal string of the
computed integer: the hour reduced by the sign-of-dividend mod 24, the minute
with no modulus at all. -/
theorem C10_fixed_branch_exact (s : String) (o : Int)
    (hne : s.data.isEmpty = false) (hdig : s.data.all Char.isDigit = true) :
    utc_hour_case o s =
      toString (Int.tmod ((parseDigits s : Int) - Int.fdiv o 3600) 24) ∧
    utc_minute_case o s =
      toString ((parseDigits s : Int) - Int.fdiv (Int.tmod o 3600) 60) := by
  have hfix : isFixed s = true := by simp [isFixed, hne, hdig]
  constructor <;> simp [utc_hour_case, utc_minute_case, hfix]

/-- C10 witness: out-of-range hour "99" is not passed through but reduced mod 24
to "3"; leading-zero hour "09" is re-printed canonically as "9"; digits-only
minute "075" is re-printed as "75". -/
theorem C10_fixed_branch_witness :
    (utc_hour_case 0 "99" = "3" ∧ utc_hour_case 0 "09" = "9") ∧
    utc_minute_case 0 "075" = "75" :=
  ⟨⟨(C10_fixed_branch_exact "99" 0 (by decide) (by decide)).1.trans (by decide),
    (C10_fixed_branch_exact "09" 0 (by decide) (by decide)).1.trans (by decide)⟩,
    (C10_fixed_branch_exact "075" 0 (by decide) (by decide)).2.trans (by decide)⟩

end DjangoCeleryBeat
